import Mathlib

/-!
Shallow embedding of the coin-transfer and purchase core of the merch-store
service (internal/usecase/employee.go and internal/repository/employee.go).

The relational store is modelled as lists of rows, one list per table
(`employees`, `inventory`, `transactions`, `merch`); each repository method is
translated from the SQL query it executes.  `TransferCoins` runs inside a
database transaction whose `defer` commits on success and rolls back on any
error, so its embedding returns the untouched input store on every error path.
`BuyMerch` performs its two writes without a transaction, so its embedding
threads the store through each write and a later failure keeps the effect of an
earlier, already-executed write; possible failures of the two write statements
are injected through a `Faults` record.
-/

namespace MerchStore

/-- A row of the `employees` table (`entity.Employee`). -/
structure Employee where
  id : Int
  name : String
  coins : Int
  password : String
deriving DecidableEq, Repr

/-- A row of the `inventory` table, keyed by `(employee_id, type)`. -/
structure InventoryRow where
  employeeId : Int
  itemType : String
  quantity : Int
deriving DecidableEq, Repr

/-- An element of the list returned by `GetEmployeeInventory`
(`entity.Inventory`: the `type` and `quantity` columns). -/
structure InventoryItem where
  itemType : String
  quantity : Int
deriving DecidableEq, Repr

/-- A row of the `transactions` table: one completed transfer. -/
structure TransferRecord where
  fromUser : Int
  toUser : Int
  amount : Int
deriving DecidableEq, Repr

/-- `entity.Transaction`: one side of a transfer as shown in coin history. -/
structure Transaction where
  userId : Int
  amount : Int
deriving DecidableEq, Repr

/-- `entity.CoinHistory`. -/
structure CoinHistory where
  received : List Transaction
  sent : List Transaction
deriving DecidableEq, Repr

/-- A row of the `merch` table. -/
structure MerchRow where
  name : String
  price : Int
deriving DecidableEq, Repr

/-- `entity.InfoResponse`. -/
structure InfoResponse where
  coins : Int
  inventory : List InventoryItem
  coinHistory : CoinHistory
deriving DecidableEq, Repr

/-- The database: one list of rows per table. -/
structure Store where
  employees : List Employee
  inventory : List InventoryRow
  transactions : List TransferRecord
  merch : List MerchRow
deriving DecidableEq, Repr

/-- `SELECT id, name, coins FROM employees WHERE id = $1` (first matching row,
as `QueryRow.Scan` reads one row; the serial primary key makes it unique). -/
def getEmployeeByID (st : Store) (employeeID : Int) : Option Employee :=
  st.employees.find? (fun e => e.id == employeeID)

/-- `UPDATE employees SET coins = $1 WHERE id = $2`: every row with the given
id gets the new coin amount. -/
def updateEmployeeCoins (st : Store) (employeeID newAmount : Int) : Store :=
  { st with employees :=
      st.employees.map (fun e =>
        if e.id == employeeID then { e with coins := newAmount } else e) }

/-- `SELECT price FROM merch WHERE name = $1`. -/
def getMerchPrice (st : Store) (itemName : String) : Option Int :=
  (st.merch.find? (fun m => m.name == itemName)).map (·.price)

/-- `SELECT type, quantity FROM inventory WHERE employee_id = $1`. -/
def getEmployeeInventory (st : Store) (employeeID : Int) : List InventoryItem :=
  (st.inventory.filter (fun r => r.employeeId == employeeID)).map
    (fun r => ⟨r.itemType, r.quantity⟩)

/-- The two history queries: received rows are
`SELECT from_user_id, amount ... WHERE to_user_id = $1`, sent rows are
`SELECT to_user_id, amount ... WHERE from_user_id = $1`. -/
def getEmployeeCoinHistory (st : Store) (employeeID : Int) : CoinHistory :=
  { received := (st.transactions.filter (fun t => t.toUser == employeeID)).map
      (fun t => ⟨t.fromUser, t.amount⟩)
    sent := (st.transactions.filter (fun t => t.fromUser == employeeID)).map
      (fun t => ⟨t.toUser, t.amount⟩) }

/-- `INSERT INTO transactions (from_user_id, to_user_id, amount) VALUES ...`. -/
def recordTransaction (st : Store) (fromEmployeeID toEmployeeID amount : Int) : Store :=
  { st with transactions := st.transactions ++ [⟨fromEmployeeID, toEmployeeID, amount⟩] }

/-- `INSERT INTO inventory (employee_id, type, quantity) VALUES ($1, $2, 1)
ON CONFLICT (employee_id, type) DO UPDATE SET quantity = inventory.quantity + 1`.
The conflict target is the unique key `(employee_id, type)`, so at most one row
can match; updating all matching rows coincides with updating that one row. -/
def addToInventory (st : Store) (employeeID : Int) (itemName : String) : Store :=
  if st.inventory.any (fun r => r.employeeId == employeeID && r.itemType == itemName) then
    { st with inventory :=
        st.inventory.map (fun r =>
          if r.employeeId == employeeID && r.itemType == itemName then
            { r with quantity := r.quantity + 1 }
          else r) }
  else
    { st with inventory := st.inventory ++ [⟨employeeID, itemName, 1⟩] }

/-- The distinguishable error outcomes of the usecase operations. -/
inductive UErr where
  | accountNotFound
  | insufficientFunds
  | itemNotFound
  | persistenceFailure
deriving DecidableEq, Repr

/-- `employeeUsecase.TransferCoins`: inside one transaction it reads the
sender, rejects if `sender.coins < amount`, reads the recipient, writes
`sender.coins - amount`, writes `recipient.coins + amount` (both computed from
the balances read before any write), and appends the ledger record.  The
deferred closure rolls the transaction back on any error, so each error path
yields the original store. -/
def transferCoins (st : Store) (fromEmployeeID toEmployeeID amount : Int) :
    Store × Option UErr :=
  match getEmployeeByID st fromEmployeeID with
  | none => (st, some .accountNotFound)
  | some fromEmployee =>
    if fromEmployee.coins < amount then
      (st, some .insufficientFunds)
    else
      match getEmployeeByID st toEmployeeID with
      | none => (st, some .accountNotFound)
      | some toEmployee =>
        let st1 := updateEmployeeCoins st fromEmployeeID (fromEmployee.coins - amount)
        let st2 := updateEmployeeCoins st1 toEmployeeID (toEmployee.coins + amount)
        (recordTransaction st2 fromEmployeeID toEmployeeID amount, none)

/-- Injected storage failures for the two write statements of `BuyMerch`,
which runs them outside any transaction.  A failed `Exec` applies nothing,
but a failure of the second write does not undo the first. -/
structure Faults where
  failUpdateCoins : Bool
  failAddItem : Bool
deriving DecidableEq, Repr

/-- `employeeUsecase.BuyMerch`: price lookup, account lookup, sufficiency
check, then two separate non-transactional writes (`UpdateEmployeeCoins`,
`AddToInventory`).  If the second write fails the first one remains applied. -/
def buyMerch (st : Store) (employeeID : Int) (itemName : String) (f : Faults) :
    Store × Option UErr :=
  match getMerchPrice st itemName with
  | none => (st, some .itemNotFound)
  | some price =>
    match getEmployeeByID st employeeID with
    | none => (st, some .accountNotFound)
    | some employee =>
      if employee.coins < price then
        (st, some .insufficientFunds)
      else if f.failUpdateCoins then
        (st, some .persistenceFailure)
      else
        let st1 := updateEmployeeCoins st employeeID (employee.coins - price)
        if f.failAddItem then
          (st1, some .persistenceFailure)
        else
          (addToInventory st1 employeeID itemName, none)

/-- `employeeUsecase.GetEmployeeInfo`: three reads (`GetEmployeeByID`,
`GetEmployeeInventory`, `GetEmployeeCoinHistory`), no write statement; the
store component records the state the database is left in. -/
def getEmployeeInfo (st : Store) (employeeID : Int) : Store × Option InfoResponse :=
  match getEmployeeByID st employeeID with
  | none => (st, none)
  | some employee =>
      (st, some { coins := employee.coins
                  inventory := getEmployeeInventory st employeeID
                  coinHistory := getEmployeeCoinHistory st employeeID })

/-- One mutating usecase invocation. -/
inductive Op where
  | transfer (fromEmployeeID toEmployeeID amount : Int)
  | buy (employeeID : Int) (itemName : String) (f : Faults)
deriving DecidableEq, Repr

/-- Apply one operation to the store. -/
def applyOp (st : Store) : Op → Store × Option UErr
  | .transfer f t a => transferCoins st f t a
  | .buy e i fl => buyMerch st e i fl

/-- Run a sequence of operations, keeping each resulting store. -/
def run (st : Store) (ops : List Op) : Store :=
  ops.foldl (fun s op => (applyOp s op).1) st

/-- Sum of all account balances. -/
def sumCoins (st : Store) : Int :=
  (st.employees.map (·.coins)).sum

/-- The serial primary key of `employees`: ids are pairwise distinct. -/
def idsNodup (st : Store) : Prop :=
  (st.employees.map (·.id)).Nodup

/-- Every account balance is nonnegative. -/
def allNonneg (st : Store) : Prop :=
  ∀ e ∈ st.employees, 0 ≤ e.coins

instance (st : Store) : Decidable (idsNodup st) := by
  unfold idsNodup
  exact List.nodupDecidable _

instance (st : Store) : Decidable (allNonneg st) := by
  unfold allNonneg
  exact List.decidableBAll _ _

/-- An operation that is a transfer between two distinct accounts. -/
def Op.isDistinctTransfer : Op → Bool
  | .transfer f t _ => f != t
  | .buy _ _ _ => false

/-- An operation whose amount argument is nonnegative (purchases take no
amount argument). -/
def Op.hasNonnegAmount : Op → Bool
  | .transfer _ _ a => decide (0 ≤ a)
  | .buy _ _ _ => true

/-! ### Helper lemmas about the row-level operations -/

theorem find?_cons_eq_true {α : Type} (p : α → Bool) (a : α) (t : List α)
    (h : p a = true) : (a :: t).find? p = some a := by
  rw [List.find?_cons, h]

theorem find?_cons_eq_false {α : Type} (p : α → Bool) (a : α) (t : List α)
    (h : p a = false) : (a :: t).find? p = t.find? p := by
  rw [List.find?_cons, h]

theorem map_set_coins_of_not_mem (l : List Employee) (i v : Int)
    (h : ∀ e ∈ l, e.id ≠ i) :
    l.map (fun e => if e.id == i then { e with coins := v } else e) = l := by
  induction l with
  | nil => rfl
  | cons a t ih =>
    have ha : ¬ a.id = i := h a (List.mem_cons_self a t)
    have hb : (a.id == i) = false := beq_eq_false_iff_ne.mpr ha
    rw [List.map_cons, if_neg (by simp [hb]),
      ih (fun e he => h e (List.mem_cons_of_mem _ he))]

theorem find?_set_coins_self (l : List Employee) (i v : Int) (emp : Employee)
    (h : l.find? (fun e => e.id == i) = some emp) :
    (l.map (fun e => if e.id == i then { e with coins := v } else e)).find?
      (fun e => e.id == i) = some { emp with coins := v } := by
  induction l with
  | nil => simp at h
  | cons a t ih =>
    by_cases ha : a.id = i
    · have hb : (a.id == i) = true := beq_iff_eq.mpr ha
      rw [find?_cons_eq_true (fun e => e.id == i) a t hb] at h
      obtain rfl : a = emp := Option.some.inj h
      rw [List.map_cons, if_pos hb]
      apply find?_cons_eq_true
      exact hb
    · have hb : (a.id == i) = false := beq_eq_false_iff_ne.mpr ha
      rw [find?_cons_eq_false (fun e => e.id == i) a t hb] at h
      rw [List.map_cons, if_neg (by simp [hb])]
      refine Eq.trans ?_ (ih h)
      apply find?_cons_eq_false
      exact hb

theorem find?_set_coins_ne (l : List Employee) (i j v : Int) (hij : j ≠ i) :
    (l.map (fun e => if e.id == j then { e with coins := v } else e)).find?
      (fun e => e.id == i) = l.find? (fun e => e.id == i) := by
  induction l with
  | nil => rfl
  | cons a t ih =>
    by_cases ha : a.id = i
    · have hne : ¬ a.id = j := fun hj => hij (hj ▸ ha ▸ rfl)
      have hbj : (a.id == j) = false := beq_eq_false_iff_ne.mpr hne
      have hbi : (a.id == i) = true := beq_iff_eq.mpr ha
      rw [List.map_cons, if_neg (by simp [hbj]),
        find?_cons_eq_true (fun e => e.id == i) a _ hbi,
        find?_cons_eq_true (fun e => e.id == i) a t hbi]
    · have hbi : (a.id == i) = false := beq_eq_false_iff_ne.mpr ha
      rw [find?_cons_eq_false (fun e => e.id == i) a t hbi]
      by_cases haj : a.id = j
      · have hbj : (a.id == j) = true := beq_iff_eq.mpr haj
        rw [List.map_cons, if_pos hbj]
        refine Eq.trans ?_ ih
        apply find?_cons_eq_false
        exact hbi
      · have hbj : (a.id == j) = false := beq_eq_false_iff_ne.mpr haj
        rw [List.map_cons, if_neg (by simp [hbj])]
        refine Eq.trans ?_ ih
        apply find?_cons_eq_false
        exact hbi

theorem sum_set_coins (l : List Employee) (i v : Int) (emp : Employee)
    (hnd : (l.map (·.id)).Nodup)
    (h : l.find? (fun e => e.id == i) = some emp) :
    ((l.map (fun e => if e.id == i then { e with coins := v } else e)).map
        (·.coins)).sum
      = (l.map (·.coins)).sum - emp.coins + v := by
  induction l with
  | nil => simp at h
  | cons a t ih =>
    simp only [List.map_cons, List.nodup_cons] at hnd
    by_cases ha : a.id = i
    · have hb : (a.id == i) = true := beq_iff_eq.mpr ha
      rw [find?_cons_eq_true (fun e => e.id == i) a t hb] at h
      obtain rfl : a = emp := Option.some.inj h
      have htl : ∀ e ∈ t, e.id ≠ i := by
        intro e he hei
        exact hnd.1 (ha ▸ hei ▸ List.mem_map_of_mem (·.id) he)
      rw [List.map_cons, if_pos hb, map_set_coins_of_not_mem t i v htl,
        List.map_cons, List.sum_cons, List.map_cons, List.sum_cons]
      show v + (t.map (·.coins)).sum = a.coins + (t.map (·.coins)).sum - a.coins + v
      ring
    · have hb : (a.id == i) = false := beq_eq_false_iff_ne.mpr ha
      rw [find?_cons_eq_false (fun e => e.id == i) a t hb] at h
      rw [List.map_cons, if_neg (by simp [hb]), List.map_cons, List.sum_cons,
        List.map_cons, List.sum_cons, ih hnd.2 h]
      ring

theorem nonneg_set_coins (l : List Employee) (i v : Int)
    (h : ∀ e ∈ l, 0 ≤ e.coins) (hv : 0 ≤ v) :
    ∀ e ∈ l.map (fun e => if e.id == i then { e with coins := v } else e),
      0 ≤ e.coins := by
  intro e he
  obtain ⟨x, hx, rfl⟩ := List.mem_map.mp he
  by_cases hxi : x.id = i
  · have hb : (x.id == i) = true := beq_iff_eq.mpr hxi
    rw [if_pos hb]
    exact hv
  · have hb : (x.id == i) = false := beq_eq_false_iff_ne.mpr hxi
    rw [if_neg (by simp [hb])]
    exact h x hx

theorem map_id_set_coins (l : List Employee) (i v : Int) :
    ((l.map (fun e => if e.id == i then { e with coins := v } else e)).map (·.id))
      = l.map (·.id) := by
  induction l with
  | nil => rfl
  | cons a t ih =>
    by_cases ha : a.id = i
    · have hb : (a.id == i) = true := beq_iff_eq.mpr ha
      rw [List.map_cons, if_pos hb, List.map_cons, ih, List.map_cons]
    · have hb : (a.id == i) = false := beq_eq_false_iff_ne.mpr ha
      rw [List.map_cons, if_neg (by simp [hb]), List.map_cons, ih, List.map_cons]

/-! Store-level corollaries of the row-level lemmas. -/

theorem getEmployeeByID_update_self (st : Store) (i v : Int) (emp : Employee)
    (h : getEmployeeByID st i = some emp) :
    getEmployeeByID (updateEmployeeCoins st i v) i = some { emp with coins := v } :=
  find?_set_coins_self st.employees i v emp h

theorem getEmployeeByID_update_ne (st : Store) (i j v : Int) (hij : j ≠ i) :
    getEmployeeByID (updateEmployeeCoins st j v) i = getEmployeeByID st i :=
  find?_set_coins_ne st.employees i j v hij

theorem sumCoins_update (st : Store) (i v : Int) (emp : Employee)
    (hnd : idsNodup st) (h : getEmployeeByID st i = some emp) :
    sumCoins (updateEmployeeCoins st i v) = sumCoins st - emp.coins + v :=
  sum_set_coins st.employees i v emp hnd h

theorem allNonneg_update (st : Store) (i v : Int)
    (h : allNonneg st) (hv : 0 ≤ v) :
    allNonneg (updateEmployeeCoins st i v) :=
  nonneg_set_coins st.employees i v h hv

theorem idsNodup_update (st : Store) (i v : Int) (h : idsNodup st) :
    idsNodup (updateEmployeeCoins st i v) := by
  unfold idsNodup at *
  rw [show (updateEmployeeCoins st i v).employees
      = st.employees.map (fun e => if e.id == i then { e with coins := v } else e)
    from rfl, map_id_set_coins]
  exact h

theorem addToInventory_employees (st : Store) (e : Int) (it : String) :
    (addToInventory st e it).employees = st.employees := by
  unfold addToInventory
  split <;> rfl

theorem addToInventory_transactions (st : Store) (e : Int) (it : String) :
    (addToInventory st e it).transactions = st.transactions := by
  unfold addToInventory
  split <;> rfl

theorem ids_update (st : Store) (i v : Int) :
    ((updateEmployeeCoins st i v).employees.map (·.id)) = st.employees.map (·.id) :=
  map_id_set_coins st.employees i v

/-! ### Per-operation preservation lemmas -/

theorem transferCoins_ids (st : Store) (f t a : Int) :
    ((transferCoins st f t a).1.employees.map (·.id)) = st.employees.map (·.id) := by
  unfold transferCoins
  split
  · rfl
  · split
    · rfl
    · split
      · rfl
      · exact (ids_update _ t _).trans (ids_update st f _)

theorem buyMerch_ids (st : Store) (e : Int) (it : String) (fl : Faults) :
    ((buyMerch st e it fl).1.employees.map (·.id)) = st.employees.map (·.id) := by
  unfold buyMerch
  split
  · rfl
  · split
    · rfl
    · split
      · rfl
      · split
        · rfl
        · split
          · exact ids_update st e _
          · show ((addToInventory _ e it).employees.map (·.id)) = _
            rw [addToInventory_employees]
            exact ids_update st e _

theorem sumCoins_transfer (st : Store) (f t a : Int)
    (hnd : idsNodup st) (hft : f ≠ t) :
    sumCoins (transferCoins st f t a).1 = sumCoins st := by
  unfold transferCoins
  split
  · rfl
  next fromEmployee hf =>
    split
    · rfl
    · split
      · rfl
      next toEmployee ht =>
        have hnd1 : idsNodup (updateEmployeeCoins st f (fromEmployee.coins - a)) :=
          idsNodup_update st f _ hnd
        have ht1 : getEmployeeByID (updateEmployeeCoins st f (fromEmployee.coins - a)) t
            = some toEmployee :=
          (getEmployeeByID_update_ne _ t f _ hft).trans ht
        show sumCoins (updateEmployeeCoins
            (updateEmployeeCoins st f (fromEmployee.coins - a)) t
            (toEmployee.coins + a)) = sumCoins st
        rw [sumCoins_update _ t _ toEmployee hnd1 ht1,
          sumCoins_update st f _ fromEmployee hnd hf]
        ring

theorem allNonneg_transfer (st : Store) (f t a : Int)
    (hst : allNonneg st) (ha : 0 ≤ a) :
    allNonneg (transferCoins st f t a).1 := by
  unfold transferCoins
  split
  · exact hst
  next fromEmployee hf =>
    split
    · exact hst
    next hlt =>
      split
      · exact hst
      next toEmployee ht =>
        have h1 : allNonneg (updateEmployeeCoins st f (fromEmployee.coins - a)) :=
          allNonneg_update st f _ hst
            (Int.sub_nonneg.mpr (Int.not_lt.mp hlt))
        have h2 : allNonneg (updateEmployeeCoins
            (updateEmployeeCoins st f (fromEmployee.coins - a)) t
            (toEmployee.coins + a)) :=
          allNonneg_update _ t _ h1
            (add_nonneg (hst toEmployee (List.mem_of_find?_eq_some ht)) ha)
        exact h2

theorem allNonneg_buy (st : Store) (e : Int) (it : String) (fl : Faults)
    (hst : allNonneg st) :
    allNonneg (buyMerch st e it fl).1 := by
  unfold buyMerch
  split
  · exact hst
  next price hp =>
    split
    · exact hst
    next employee he =>
      split
      · exact hst
      next hlt =>
        have h1 : allNonneg (updateEmployeeCoins st e (employee.coins - price)) :=
          allNonneg_update st e _ hst
            (Int.sub_nonneg.mpr (Int.not_lt.mp hlt))
        split
        · exact hst
        · split
          · exact h1
          · intro x hx
            rw [show (addToInventory
                (updateEmployeeCoins st e (employee.coins - price)) e it).employees
              = (updateEmployeeCoins st e (employee.coins - price)).employees
              from addToInventory_employees _ e it] at hx
            exact h1 x hx

theorem applyOp_ids (st : Store) (op : Op) :
    ((applyOp st op).1.employees.map (·.id)) = st.employees.map (·.id) := by
  cases op with
  | transfer f t a => exact transferCoins_ids st f t a
  | buy e it fl => exact buyMerch_ids st e it fl

theorem applyOp_idsNodup (st : Store) (op : Op) (h : idsNodup st) :
    idsNodup (applyOp st op).1 := by
  unfold idsNodup
  rw [applyOp_ids]
  exact h

/-! ### Claim theorems -/

/-- A one-account store used to exercise a self-transfer. -/
def storeOne : Store :=
  { employees := [⟨1, "a", 1000, "pa"⟩], inventory := [], transactions := [], merch := [] }

/-- A two-account store with both balances at 1000. -/
def storeTwo : Store :=
  { employees := [⟨1, "a", 1000, "pa"⟩, ⟨2, "b", 1000, "pb"⟩],
    inventory := [], transactions := [], merch := [] }

/-- C1 counterexample: a successful self-transfer of 200 from account 1 to
itself raises the sum of balances from 1000 to 1200 — the credit write
`toEmployee.Coins + amount`, computed from the balance read before the debit,
overwrites the debit write, creating coins.  Conservation fails for
`senderID = recipientID`. -/
theorem selfTransfer_breaks_conservation :
    (transferCoins storeOne 1 1 200).2 = none
    ∧ sumCoins (run storeOne [Op.transfer 1 1 200]) = 1200
    ∧ sumCoins storeOne = 1000
    ∧ sumCoins (run storeOne [Op.transfer 1 1 200]) ≠ sumCoins storeOne := by
  decide

/-- C1 (amended): coins are conserved by every sequence of TransferCoins
operations in which sender and recipient are distinct; the sum of all account
balances after the sequence equals the sum before it (failed transfers leave
the store untouched, successful distinct transfers move coins). -/
theorem conservation_of_distinct_transfers (st : Store) (ops : List Op)
    (hnd : idsNodup st) (hops : ∀ op ∈ ops, op.isDistinctTransfer = true) :
    sumCoins (run st ops) = sumCoins st := by
  induction ops generalizing st with
  | nil => rfl
  | cons op rest ih =>
    have hop := hops op (List.mem_cons_self op rest)
    have hstep : sumCoins (applyOp st op).1 = sumCoins st := by
      cases op with
      | transfer f t a =>
        have hft : f ≠ t := by simpa [Op.isDistinctTransfer] using hop
        exact sumCoins_transfer st f t a hnd hft
      | buy e it fl => simp [Op.isDistinctTransfer] at hop
    have hnd1 := applyOp_idsNodup st op hnd
    exact (ih (applyOp st op).1 hnd1
      (fun o ho => hops o (List.mem_cons_of_mem op ho))).trans hstep

/-- Witness for C1's amended theorem at a concrete distinct-pair transfer. -/
theorem conservation_of_distinct_transfers_witness :
    sumCoins (run storeTwo [Op.transfer 1 2 200]) = sumCoins storeTwo :=
  conservation_of_distinct_transfers storeTwo [Op.transfer 1 2 200]
    (by decide) (by decide)

/-- C2 counterexample: `TransferCoins` accepts a negative amount (the guard
`fromEmployee.Coins < amount` passes), so transferring -1500 from account 1 to
account 2, both at 1000, drives account 2 to -500: the no-overdraft invariant
fails for arbitrary integer amounts. -/
theorem negativeAmount_breaks_no_overdraft :
    (transferCoins storeTwo 1 2 (-1500)).2 = none
    ∧ getEmployeeByID (run storeTwo [Op.transfer 1 2 (-1500)]) 2
        = some ⟨2, "b", -500, "pb"⟩
    ∧ ¬ allNonneg (run storeTwo [Op.transfer 1 2 (-1500)]) := by
  decide

/-- C2 (amended): starting from any store whose balances are all nonnegative,
every sequence of TransferCoins operations with nonnegative amounts and
BuyMerch operations (with arbitrary injected storage faults) keeps every
account balance nonnegative. -/
theorem noOverdraft_of_nonneg_amounts (st : Store) (ops : List Op)
    (h0 : allNonneg st) (hops : ∀ op ∈ ops, op.hasNonnegAmount = true) :
    allNonneg (run st ops) := by
  induction ops generalizing st with
  | nil => exact h0
  | cons op rest ih =>
    have hop := hops op (List.mem_cons_self op rest)
    have hstep : allNonneg (applyOp st op).1 := by
      cases op with
      | transfer f t a =>
        have ha : 0 ≤ a := by simpa [Op.hasNonnegAmount] using hop
        exact allNonneg_transfer st f t a h0 ha
      | buy e it fl => exact allNonneg_buy st e it fl h0
    exact ih (applyOp st op).1 hstep (fun o ho => hops o (List.mem_cons_of_mem op ho))

/-- Witness for C2's amended theorem at a concrete two-operation sequence. -/
theorem noOverdraft_of_nonneg_amounts_witness :
    allNonneg (run storeTwo [Op.transfer 1 2 1000, Op.transfer 2 1 300]) :=
  noOverdraft_of_nonneg_amounts storeTwo [Op.transfer 1 2 1000, Op.transfer 2 1 300]
    (by decide) (by decide)

/-- C3: if the sender is found and its balance is below the amount,
`TransferCoins` fails with the insufficient-funds error and returns the store
unchanged; moreover every failing `TransferCoins` call (insufficient funds or
a failed account lookup) leaves balances and ledger exactly as before — the
deferred rollback discards all transactional writes. -/
theorem transferCoins_insufficient_and_error_atomicity (st : Store) (f t a : Int) :
    (∀ emp, getEmployeeByID st f = some emp → emp.coins < a →
      transferCoins st f t a = (st, some UErr.insufficientFunds))
    ∧ ∀ st' e, transferCoins st f t a = (st', some e) → st' = st := by
  constructor
  · intro emp hemp hlt
    unfold transferCoins
    split
    next hf => rw [hemp] at hf; cases hf
    next fe hf =>
      obtain rfl : fe = emp := by
        rw [hemp] at hf
        exact (Option.some.inj hf).symm
      rw [if_pos hlt]
  · intro st' e heq
    unfold transferCoins at heq
    split at heq
    · injection heq with h1 h2
      exact h1.symm
    · split at heq
      · injection heq with h1 h2
        exact h1.symm
      · split at heq
        · injection heq with h1 h2
          exact h1.symm
        · simp at heq

/-- Witness for C3 at a concrete underfunded sender. -/
theorem transferCoins_insufficient_and_error_atomicity_witness :
    transferCoins storeTwo 1 2 5000 = (storeTwo, some UErr.insufficientFunds) :=
  (transferCoins_insufficient_and_error_atomicity storeTwo 1 2 5000).1
    ⟨1, "a", 1000, "pa"⟩ (by decide) (by decide)

/-- A store with one account holding 100 coins and a 50-coin catalog item. -/
def storeShop : Store :=
  { employees := [⟨1, "a", 100, "pa"⟩], inventory := [], transactions := [],
    merch := [⟨"cup", 50⟩] }

/-- C4: `BuyMerch` runs its two writes outside any transaction, so when the
inventory insert fails after the balance update has been executed, the call
returns an error yet the balance stays debited (100 → 50) while the inventory
is unchanged — the debit/increment pair is not atomic. -/
theorem buyMerch_nonatomic_on_inventory_fault :
    (buyMerch storeShop 1 "cup" ⟨false, true⟩).2 = some UErr.persistenceFailure
    ∧ getEmployeeByID (buyMerch storeShop 1 "cup" ⟨false, true⟩).1 1
        = some ⟨1, "a", 50, "pa"⟩
    ∧ (buyMerch storeShop 1 "cup" ⟨false, true⟩).1.inventory = storeShop.inventory
    ∧ getEmployeeByID storeShop 1 = some ⟨1, "a", 100, "pa"⟩ := by
  decide

/-- C5 counterexample: a transfer of amount 0 (a non-positive amount) is not
rejected as an invalid argument: it succeeds, reads both accounts, rewrites
both balances and appends a ledger record. -/
theorem zeroAmount_transfer_accepted :
    (transferCoins storeTwo 1 2 0).2 = none
    ∧ (transferCoins storeTwo 1 2 0).1.transactions = [⟨1, 2, 0⟩] := by
  decide

/-- C5 (amended): `TransferCoins` performs no amount validation at all.  A
non-positive amount is never rejected as an invalid argument: whenever both
accounts exist and the sender's balance is nonnegative, the transfer of a
non-positive amount succeeds, performing its balance writes and appending a
ledger record. -/
theorem transferCoins_no_amount_validation (st : Store) (f t a : Int)
    (emp temp : Employee) (ha : a ≤ 0) (hc : 0 ≤ emp.coins)
    (hf : getEmployeeByID st f = some emp)
    (ht : getEmployeeByID st t = some temp) :
    (transferCoins st f t a).2 = none
    ∧ (transferCoins st f t a).1.transactions = st.transactions ++ [⟨f, t, a⟩] := by
  have hlt : ¬ emp.coins < a := by omega
  unfold transferCoins
  split
  next hf' => rw [hf] at hf'; cases hf'
  next fe hf' =>
    obtain rfl : fe = emp := by
      rw [hf] at hf'
      exact (Option.some.inj hf').symm
    rw [if_neg hlt]
    split
    next ht' => rw [ht] at ht'; cases ht'
    next te ht' =>
      exact ⟨rfl, rfl⟩

/-- Witness for C5's amended theorem at a concrete negative amount. -/
theorem transferCoins_no_amount_validation_witness :
    (transferCoins storeTwo 1 2 (-5)).2 = none
    ∧ (transferCoins storeTwo 1 2 (-5)).1.transactions
        = storeTwo.transactions ++ [⟨1, 2, -5⟩] :=
  transferCoins_no_amount_validation storeTwo 1 2 (-5)
    ⟨1, "a", 1000, "pa"⟩ ⟨2, "b", 1000, "pb"⟩
    (by decide) (by decide) (by decide) (by decide)

/-- C6: a successful transfer of 200 between distinct accounts A (at 1000) and
B (at 1000) leaves A at 800 and B at 1200, appends exactly one
TransferRecord(A, B, 200) to the ledger, and that record shows up in A's sent
history and B's received history. -/
theorem transferCoins_success_postcondition (st : Store) (A B : Int)
    (empA empB : Employee) (hAB : A ≠ B)
    (hA : getEmployeeByID st A = some empA) (hcA : empA.coins = 1000)
    (hB : getEmployeeByID st B = some empB) (hcB : empB.coins = 1000) :
    (transferCoins st A B 200).2 = none
    ∧ getEmployeeByID (transferCoins st A B 200).1 A = some { empA with coins := 800 }
    ∧ getEmployeeByID (transferCoins st A B 200).1 B = some { empB with coins := 1200 }
    ∧ (transferCoins st A B 200).1.transactions = st.transactions ++ [⟨A, B, 200⟩]
    ∧ (⟨B, 200⟩ : Transaction) ∈ (getEmployeeCoinHistory (transferCoins st A B 200).1 A).sent
    ∧ (⟨A, 200⟩ : Transaction)
        ∈ (getEmployeeCoinHistory (transferCoins st A B 200).1 B).received := by
  have hres : transferCoins st A B 200
      = (recordTransaction (updateEmployeeCoins (updateEmployeeCoins st A
          (empA.coins - 200)) B (empB.coins + 200)) A B 200, none) := by
    unfold transferCoins
    split
    next hf' => rw [hA] at hf'; cases hf'
    next fe hf' =>
      obtain rfl : fe = empA := by
        rw [hA] at hf'
        exact (Option.some.inj hf').symm
      rw [if_neg (by omega)]
      split
      next ht' => rw [hB] at ht'; cases ht'
      next te ht' =>
        obtain rfl : te = empB := by
          rw [hB] at ht'
          exact (Option.some.inj ht').symm
        rfl
  have hA1 : getEmployeeByID (updateEmployeeCoins (updateEmployeeCoins st A
      (empA.coins - 200)) B (empB.coins + 200)) A = some { empA with coins := 800 } := by
    rw [getEmployeeByID_update_ne _ A B _ (Ne.symm hAB),
      getEmployeeByID_update_self st A _ empA hA, hcA]
    norm_num
  have hB1 : getEmployeeByID (updateEmployeeCoins (updateEmployeeCoins st A
      (empA.coins - 200)) B (empB.coins + 200)) B = some { empB with coins := 1200 } := by
    rw [getEmployeeByID_update_self _ B _ empB
      ((getEmployeeByID_update_ne st B A _ hAB).trans hB), hcB]
    norm_num
  refine ⟨by rw [hres], ?_, ?_, by rw [hres]; rfl, ?_, ?_⟩
  · rw [hres]
    exact hA1
  · rw [hres]
    exact hB1
  · rw [hres]
    show (⟨B, 200⟩ : Transaction) ∈ (getEmployeeCoinHistory _ A).sent
    unfold getEmployeeCoinHistory recordTransaction
    simp only [List.filter_append, List.map_append]
    refine List.mem_append_right _ ?_
    simp
  · rw [hres]
    show (⟨A, 200⟩ : Transaction) ∈ (getEmployeeCoinHistory _ B).received
    unfold getEmployeeCoinHistory recordTransaction
    simp only [List.filter_append, List.map_append]
    refine List.mem_append_right _ ?_
    simp

/-- Witness for C6 at a concrete pair of fresh 1000-coin accounts. -/
theorem transferCoins_success_postcondition_witness :
    (transferCoins storeTwo 1 2 200).2 = none
    ∧ getEmployeeByID (transferCoins storeTwo 1 2 200).1 1 = some ⟨1, "a", 800, "pa"⟩
    ∧ getEmployeeByID (transferCoins storeTwo 1 2 200).1 2 = some ⟨2, "b", 1200, "pb"⟩
    ∧ (transferCoins storeTwo 1 2 200).1.transactions
        = storeTwo.transactions ++ [⟨1, 2, 200⟩]
    ∧ (⟨2, 200⟩ : Transaction)
        ∈ (getEmployeeCoinHistory (transferCoins storeTwo 1 2 200).1 1).sent
    ∧ (⟨1, 200⟩ : Transaction)
        ∈ (getEmployeeCoinHistory (transferCoins storeTwo 1 2 200).1 2).received :=
  transferCoins_success_postcondition storeTwo 1 2
    ⟨1, "a", 1000, "pa"⟩ ⟨2, "b", 1000, "pb"⟩
    (by decide) (by decide) rfl (by decide) rfl

/-! ### Inventory upsert helper lemmas -/

theorem addToInventory_merch (st : Store) (e : Int) (it : String) :
    (addToInventory st e it).merch = st.merch := by
  unfold addToInventory
  split <;> rfl

theorem inv_any_false (l : List InventoryRow) (e : Int) (it : String)
    (h : ∀ r ∈ l, ¬ (r.employeeId = e ∧ r.itemType = it)) :
    l.any (fun r => r.employeeId == e && r.itemType == it) = false := by
  rw [List.any_eq_false]
  intro r hr
  simp only [Bool.and_eq_true, beq_iff_eq]
  exact h r hr

theorem inv_filter_nil (l : List InventoryRow) (e : Int) (it : String)
    (h : ∀ r ∈ l, ¬ (r.employeeId = e ∧ r.itemType = it)) :
    l.filter (fun r => r.employeeId == e && r.itemType == it) = [] := by
  rw [List.filter_eq_nil_iff]
  intro r hr
  simp only [Bool.and_eq_true, beq_iff_eq]
  exact h r hr

theorem inv_map_id (l : List InventoryRow) (e : Int) (it : String)
    (h : ∀ r ∈ l, ¬ (r.employeeId = e ∧ r.itemType = it)) :
    l.map (fun r =>
      if r.employeeId == e && r.itemType == it then
        { r with quantity := r.quantity + 1 }
      else r) = l := by
  induction l with
  | nil => rfl
  | cons a t ih =>
    have ha : ¬ ((a.employeeId == e && a.itemType == it) = true) := by
      simp only [Bool.and_eq_true, beq_iff_eq]
      exact h a (List.mem_cons_self a t)
    rw [List.map_cons, if_neg ha, ih (fun r hr => h r (List.mem_cons_of_mem _ hr))]

theorem addToInventory_new (st : Store) (e : Int) (it : String)
    (h : ∀ r ∈ st.inventory, ¬ (r.employeeId = e ∧ r.itemType = it)) :
    addToInventory st e it = { st with inventory := st.inventory ++ [⟨e, it, 1⟩] } := by
  unfold addToInventory
  rw [if_neg]
  intro hc
  rw [inv_any_false st.inventory e it h] at hc
  cases hc

theorem addToInventory_existing (st : Store) (e : Int) (it : String)
    (h : (st.inventory.any (fun r => r.employeeId == e && r.itemType == it)) = true) :
    addToInventory st e it = { st with inventory := st.inventory.map (fun r => if r.employeeId == e && r.itemType == it then { r with quantity := r.quantity + 1 } else r) } := by
  unfold addToInventory
  rw [if_pos h]

/-- A store with one 1000-coin account, an empty inventory and one catalog
item priced 50, used to exercise a double purchase. -/
def storeBuyTwice : Store :=
  { employees := [⟨1, "a", 1000, "pa"⟩], inventory := [], transactions := [],
    merch := [⟨"cup", 50⟩] }

/-- C7: starting with no inventory entry for the item, a first successful
purchase creates a single `(employee, item)` row with quantity 1 and a second
successful purchase of the same item increments that same row to quantity 2 —
the inventory afterwards holds exactly one entry for the pair, not two. -/
theorem buyMerch_upsert_quantities (st : Store) (e : Int) (it : String)
    (price : Int) (emp : Employee)
    (hp : getMerchPrice st it = some price)
    (he : getEmployeeByID st e = some emp)
    (hpos : 0 ≤ price) (hc : 2 * price ≤ emp.coins)
    (hnone : ∀ r ∈ st.inventory, ¬ (r.employeeId = e ∧ r.itemType = it)) :
    (buyMerch st e it ⟨false, false⟩).2 = none
    ∧ ((buyMerch st e it ⟨false, false⟩).1.inventory.filter
        (fun r => r.employeeId == e && r.itemType == it)) = [⟨e, it, 1⟩]
    ∧ (buyMerch (buyMerch st e it ⟨false, false⟩).1 e it ⟨false, false⟩).2 = none
    ∧ ((buyMerch (buyMerch st e it ⟨false, false⟩).1 e it
          ⟨false, false⟩).1.inventory.filter
        (fun r => r.employeeId == e && r.itemType == it)) = [⟨e, it, 2⟩] := by
  have h1 : buyMerch st e it ⟨false, false⟩
      = (addToInventory (updateEmployeeCoins st e (emp.coins - price)) e it, none) := by
    unfold buyMerch
    split
    next hp' => rw [hp] at hp'; cases hp'
    next p hp' =>
      rw [hp] at hp'
      rw [(Option.some.inj hp').symm]
      split
      next he' => rw [he] at he'; cases he'
      next em he' =>
        rw [he] at he'
        rw [(Option.some.inj he').symm]
        rw [if_neg (show ¬ emp.coins < price by omega)]
        rfl
  have hA : addToInventory (updateEmployeeCoins st e (emp.coins - price)) e it
      = { updateEmployeeCoins st e (emp.coins - price) with
          inventory := st.inventory ++ [⟨e, it, 1⟩] } :=
    addToInventory_new (updateEmployeeCoins st e (emp.coins - price)) e it hnone
  have hfilter1 : ((addToInventory (updateEmployeeCoins st e (emp.coins - price))
        e it).inventory.filter (fun r => r.employeeId == e && r.itemType == it))
      = [⟨e, it, 1⟩] := by
    rw [hA]
    show ((st.inventory ++ [(⟨e, it, 1⟩ : InventoryRow)]).filter
        (fun r => r.employeeId == e && r.itemType == it)) = [(⟨e, it, 1⟩ : InventoryRow)]
    rw [List.filter_append, inv_filter_nil st.inventory e it hnone]
    simp
  have hp2 : getMerchPrice (addToInventory (updateEmployeeCoins st e
      (emp.coins - price)) e it) it = some price := by
    unfold getMerchPrice
    rw [addToInventory_merch]
    exact hp
  have he2 : getEmployeeByID (addToInventory (updateEmployeeCoins st e
      (emp.coins - price)) e it) e = some { emp with coins := emp.coins - price } := by
    unfold getEmployeeByID
    rw [addToInventory_employees]
    exact find?_set_coins_self st.employees e (emp.coins - price) emp he
  have h2 : buyMerch (addToInventory (updateEmployeeCoins st e
        (emp.coins - price)) e it) e it ⟨false, false⟩
      = (addToInventory (updateEmployeeCoins (addToInventory (updateEmployeeCoins st e
          (emp.coins - price)) e it) e
          (({ emp with coins := emp.coins - price } : Employee).coins - price)) e it,
        none) := by
    unfold buyMerch
    split
    next hp' => rw [hp2] at hp'; cases hp'
    next p hp' =>
      rw [hp2] at hp'
      rw [(Option.some.inj hp').symm]
      split
      next he' => rw [he2] at he'; cases he'
      next em he' =>
        rw [he2] at he'
        rw [(Option.some.inj he').symm]
        rw [if_neg (show ¬ ({ emp with coins := emp.coins - price } : Employee).coins
          < price by show ¬ emp.coins - price < price; omega)]
        rfl
  have hinvE2 : (updateEmployeeCoins (addToInventory (updateEmployeeCoins st e
        (emp.coins - price)) e it) e
        (({ emp with coins := emp.coins - price } : Employee).coins - price)).inventory
      = st.inventory ++ [⟨e, it, 1⟩] := by
    show (addToInventory (updateEmployeeCoins st e (emp.coins - price)) e it).inventory
      = st.inventory ++ [⟨e, it, 1⟩]
    rw [hA]
  have hany : ((updateEmployeeCoins (addToInventory (updateEmployeeCoins st e
        (emp.coins - price)) e it) e
        (({ emp with coins := emp.coins - price } : Employee).coins - price)).inventory.any
        (fun r => r.employeeId == e && r.itemType == it)) = true := by
    rw [hinvE2]
    simp
  have hfilter2 : ((addToInventory (updateEmployeeCoins (addToInventory
        (updateEmployeeCoins st e (emp.coins - price)) e it) e
        (({ emp with coins := emp.coins - price } : Employee).coins - price)) e
        it).inventory.filter (fun r => r.employeeId == e && r.itemType == it))
      = [⟨e, it, 2⟩] := by
    rw [addToInventory_existing _ e it hany]
    show ((updateEmployeeCoins (addToInventory (updateEmployeeCoins st e
        (emp.coins - price)) e it) e
        (({ emp with coins := emp.coins - price } : Employee).coins - price)).inventory.map
        (fun r => if r.employeeId == e && r.itemType == it then
          { r with quantity := r.quantity + 1 } else r)).filter
        (fun r => r.employeeId == e && r.itemType == it) = [⟨e, it, 2⟩]
    rw [hinvE2, List.map_append, inv_map_id st.inventory e it hnone,
      List.filter_append, inv_filter_nil st.inventory e it hnone]
    simp
  exact ⟨by rw [h1], by rw [h1]; exact hfilter1, by rw [h1, h2],
    by rw [h1, h2]; exact hfilter2⟩

/-- Witness for C7 at a concrete double purchase of "cup" by account 1. -/
theorem buyMerch_upsert_quantities_witness :
    (buyMerch storeBuyTwice 1 "cup" ⟨false, false⟩).2 = none
    ∧ ((buyMerch storeBuyTwice 1 "cup" ⟨false, false⟩).1.inventory.filter
        (fun r => r.employeeId == 1 && r.itemType == "cup")) = [⟨1, "cup", 1⟩]
    ∧ (buyMerch (buyMerch storeBuyTwice 1 "cup" ⟨false, false⟩).1 1 "cup"
        ⟨false, false⟩).2 = none
    ∧ ((buyMerch (buyMerch storeBuyTwice 1 "cup" ⟨false, false⟩).1 1 "cup"
          ⟨false, false⟩).1.inventory.filter
        (fun r => r.employeeId == 1 && r.itemType == "cup")) = [⟨1, "cup", 2⟩] :=
  buyMerch_upsert_quantities storeBuyTwice 1 "cup" 50 ⟨1, "a", 1000, "pa"⟩
    (by decide) (by decide) (by decide) (by decide) (by decide)

/-- C8: `GetEmployeeInfo` issues only SELECT statements, so it leaves the
store exactly as it found it, and a second call with no intervening write
returns the identical summary. -/
theorem getEmployeeInfo_pure_and_idempotent (st : Store) (e : Int) :
    (getEmployeeInfo st e).1 = st
    ∧ (getEmployeeInfo (getEmployeeInfo st e).1 e).2 = (getEmployeeInfo st e).2 := by
  have h1 : (getEmployeeInfo st e).1 = st := by
    unfold getEmployeeInfo
    split
    · rfl
    · rfl
  exact ⟨h1, by rw [h1]⟩

/-- A store with one account whose balance equals the self-transfer amount. -/
def storeExact : Store :=
  { employees := [⟨1, "a", 200, "pa"⟩], inventory := [], transactions := [], merch := [] }

/-- C9 counterexample: account 1 holds exactly 200 coins and transfers 200 to
itself.  The strict `<` check passes, the transfer succeeds — but the sender's
balance afterwards is 400, not 0, because the credit write overwrites the
debit.  The claim's "leaves the sender's balance at 0" fails when the sender
is also the recipient. -/
theorem selfTransfer_exact_balance_not_zero :
    (transferCoins storeExact 1 1 200).2 = none
    ∧ getEmployeeByID (transferCoins storeExact 1 1 200).1 1
        = some ⟨1, "a", 400, "pa"⟩
    ∧ (getEmployeeByID (transferCoins storeExact 1 1 200).1 1).map Employee.coins
        ≠ some 0 := by
  decide

/-- C9 (amended): the sufficiency checks are strict less-than, so a balance
exactly equal to the amount or price is not insufficient funds: a transfer of
the sender's entire balance to a distinct recipient succeeds and leaves the
sender at 0, and a purchase whose price equals the buyer's balance succeeds
and leaves the balance at 0. -/
theorem exact_balance_boundary :
    (∀ (st : Store) (f t a : Int) (empF empT : Employee), f ≠ t →
      getEmployeeByID st f = some empF → empF.coins = a →
      getEmployeeByID st t = some empT →
      (transferCoins st f t a).2 = none
      ∧ getEmployeeByID (transferCoins st f t a).1 f = some { empF with coins := 0 })
    ∧ ∀ (st : Store) (e : Int) (it : String) (price : Int) (emp : Employee),
      getMerchPrice st it = some price →
      getEmployeeByID st e = some emp → emp.coins = price →
      (buyMerch st e it ⟨false, false⟩).2 = none
      ∧ getEmployeeByID (buyMerch st e it ⟨false, false⟩).1 e
          = some { emp with coins := 0 } := by
  constructor
  · intro st f t a empF empT hft hf hcf ht
    have hres : transferCoins st f t a
        = (recordTransaction (updateEmployeeCoins (updateEmployeeCoins st f
            (empF.coins - a)) t (empT.coins + a)) f t a, none) := by
      unfold transferCoins
      split
      next hf' => rw [hf] at hf'; cases hf'
      next fe hf' =>
        rw [hf] at hf'
        rw [(Option.some.inj hf').symm]
        rw [if_neg (show ¬ empF.coins < a by omega)]
        split
        next ht' => rw [ht] at ht'; cases ht'
        next te ht' =>
          rw [ht] at ht'
          rw [(Option.some.inj ht').symm]
    refine ⟨by rw [hres], ?_⟩
    rw [hres]
    show getEmployeeByID (updateEmployeeCoins (updateEmployeeCoins st f
      (empF.coins - a)) t (empT.coins + a)) f = some { empF with coins := 0 }
    rw [getEmployeeByID_update_ne _ f t _ hft.symm,
      show empF.coins - a = 0 by omega,
      getEmployeeByID_update_self st f 0 empF hf]
  · intro st e it price emp hp he hcp
    have hres : buyMerch st e it ⟨false, false⟩
        = (addToInventory (updateEmployeeCoins st e (emp.coins - price)) e it,
          none) := by
      unfold buyMerch
      split
      next hp' => rw [hp] at hp'; cases hp'
      next p hp' =>
        rw [hp] at hp'
        rw [(Option.some.inj hp').symm]
        split
        next he' => rw [he] at he'; cases he'
        next em he' =>
          rw [he] at he'
          rw [(Option.some.inj he').symm]
          rw [if_neg (show ¬ emp.coins < price by omega)]
          rfl
    refine ⟨by rw [hres], ?_⟩
    rw [hres]
    show getEmployeeByID (addToInventory (updateEmployeeCoins st e
      (emp.coins - price)) e it) e = some { emp with coins := 0 }
    unfold getEmployeeByID
    rw [addToInventory_employees, show emp.coins - price = 0 by omega]
    exact find?_set_coins_self st.employees e 0 emp he

/-- A store exercising both exact-balance boundaries: account 1 holds 300
coins and the catalog item "pen" costs exactly 300. -/
def storeNine : Store :=
  { employees := [⟨1, "a", 300, "pa"⟩, ⟨2, "b", 7, "pb"⟩], inventory := [],
    transactions := [], merch := [⟨"pen", 300⟩] }

/-- Witness for C9's amended theorem: a 300-coin sender sends all 300 coins to
a distinct account, and a 300-coin account buys a 300-coin item. -/
theorem exact_balance_boundary_witness :
    ((transferCoins storeNine 1 2 300).2 = none
      ∧ getEmployeeByID (transferCoins storeNine 1 2 300).1 1
          = some ⟨1, "a", 0, "pa"⟩)
    ∧ (buyMerch storeNine 1 "pen" ⟨false, false⟩).2 = none
      ∧ getEmployeeByID (buyMerch storeNine 1 "pen" ⟨false, false⟩).1 1
          = some ⟨1, "a", 0, "pa"⟩ :=
  ⟨exact_balance_boundary.1 storeNine 1 2 300 ⟨1, "a", 300, "pa"⟩ ⟨2, "b", 7, "pb"⟩
      (by decide) (by decide) rfl (by decide),
    exact_balance_boundary.2 storeNine 1 "pen" 300 ⟨1, "a", 300, "pa"⟩
      (by decide) (by decide) rfl⟩

/-- C10: a self-transfer of `a ≤ balance` succeeds and leaves the account at
`balance + a`: both balances are read before the writes, so the credit write
`toEmployee.Coins + amount` overwrites the debit write, and the ledger record
is still appended. -/
theorem selfTransfer_credits_overwrite_debit (st : Store) (x a : Int)
    (emp : Employee) (hx : getEmployeeByID st x = some emp) (ha : a ≤ emp.coins) :
    (transferCoins st x x a).2 = none
    ∧ getEmployeeByID (transferCoins st x x a).1 x
        = some { emp with coins := emp.coins + a }
    ∧ (transferCoins st x x a).1.transactions = st.transactions ++ [⟨x, x, a⟩] := by
  have hres : transferCoins st x x a
      = (recordTransaction (updateEmployeeCoins (updateEmployeeCoins st x
          (emp.coins - a)) x (emp.coins + a)) x x a, none) := by
    unfold transferCoins
    split
    next hf' => rw [hx] at hf'; cases hf'
    next fe hf' =>
      rw [hx] at hf'
      rw [(Option.some.inj hf').symm]
      rw [if_neg (show ¬ emp.coins < a by omega)]
  refine ⟨by rw [hres], ?_, by rw [hres]; rfl⟩
  rw [hres]
  show getEmployeeByID (updateEmployeeCoins (updateEmployeeCoins st x
    (emp.coins - a)) x (emp.coins + a)) x = some { emp with coins := emp.coins + a }
  rw [getEmployeeByID_update_self _ x (emp.coins + a) { emp with coins := emp.coins - a }
    (getEmployeeByID_update_self st x (emp.coins - a) emp hx)]

/-- A one-account store used to exercise the C10 self-transfer witness. -/
def storeTen : Store :=
  { employees := [⟨1, "a", 100, "pa"⟩], inventory := [], transactions := [], merch := [] }

/-- Witness for C10 at a concrete self-transfer of 40 out of 100 coins. -/
theorem selfTransfer_credits_overwrite_debit_witness :
    (transferCoins storeTen 1 1 40).2 = none
    ∧ getEmployeeByID (transferCoins storeTen 1 1 40).1 1
        = some ⟨1, "a", 140, "pa"⟩
    ∧ (transferCoins storeTen 1 1 40).1.transactions
        = storeTen.transactions ++ [⟨1, 1, 40⟩] :=
  selfTransfer_credits_overwrite_debit storeTen 1 40 ⟨1, "a", 100, "pa"⟩
    (by decide) (by decide)

end MerchStore
